import Mathlib

/-!
Verification of `backend-guide/assistant.py` (class `BackendAssistant`).

The program is an interactive, single-threaded questionnaire.  We embed it
shallowly: the operator's console input is a list of events (a line of text,
or a cancellation signal delivered while blocked on a read), and every
function of the source becomes a pure Lean function threading the session
dictionary and the remaining input through.  Running out of events models
`input()` raising `EOFError` (an `Exception`); a cancellation event models
`KeyboardInterrupt` raised at a blocking read.
-/

set_option autoImplicit false

/-- Values stored in the `session_data` dictionary: Python `None`, `str`,
`int` and nested `dict` values (the only shapes the source ever stores). -/
inductive JValue where
  | null : JValue
  | str (s : String) : JValue
  | num (n : Int) : JValue
  | obj (fields : List (String × JValue)) : JValue

/-- The session dictionary: an insertion-ordered association list, exactly
like a Python `dict` restricted to the operations the source uses. -/
abbrev Session := List (String × JValue)

/-- Python dict assignment `d[k] = v`: replace the value in place if the key
is present (keeping insertion order), otherwise append the new key. -/
def dictSet : Session → String → JValue → Session
  | [], k, v => [(k, v)]
  | (k', v') :: rest, k, v =>
    if k' = k then (k, v) :: rest else (k', v') :: dictSet rest k v

/-- Python dict lookup: the value of the first matching key, if any.  Also
used for the nested dict values stored inside the session. -/
def dictGet : Session → String → Option JValue
  | [], _ => none
  | (k', v') :: rest, k => if k' = k then some v' else dictGet rest k

/-- Python substring test `sub in s`. -/
def pyIn (sub s : String) : Bool := decide (sub.data <:+: s.data)

/-- Python `str.strip()`: remove leading and trailing whitespace. -/
def pyStrip (s : String) : String :=
  ⟨((s.data.dropWhile Char.isWhitespace).reverse.dropWhile Char.isWhitespace).reverse⟩

/-- Numeric value of a list of decimal digit characters. -/
def digitsVal (ds : List Char) : Nat :=
  ds.foldl (fun a c => a * 10 + (c.toNat - 48)) 0

/-- Python `int(s)` on an already-stripped string: an optional sign followed
by one or more decimal digits; anything else raises `ValueError` (`none`). -/
def pyParseInt (s : String) : Option Int :=
  match s.data with
  | [] => none
  | '+' :: ds =>
    if !ds.isEmpty && ds.all Char.isDigit then some (digitsVal ds) else none
  | '-' :: ds =>
    if !ds.isEmpty && ds.all Char.isDigit then some (-(digitsVal ds : Int)) else none
  | ds =>
    if ds.all Char.isDigit then some ((digitsVal ds : Nat) : Int) else none

/-- Which `input()` call inside `ask_question` the loop is blocked on:
the numbered-choice read, the custom "Please specify" read, or the
free-text read used when no options are supplied. -/
inductive AskState where
  | waitingChoice : AskState
  | waitingCustom : AskState
  | waitingFree : AskState
deriving DecidableEq

/-- Result of processing one line inside `ask_question`'s `while True` loop:
either a value is returned, or the loop continues blocked on a given read. -/
inductive StepRes where
  | done (answer : String) : StepRes
  | again (st : AskState) : StepRes
deriving DecidableEq

/-- One iteration of `ask_question`'s loop body on one line of input
(`assistant.py`, lines 54-76).  The line is stripped first, mirroring
`input(...).strip()`. -/
def askStep (options : List String) (allowCustom : Bool) :
    AskState → String → StepRes
  | .waitingChoice, line =>
    let response := pyStrip line
    match pyParseInt response with
    | some choice =>
      if 1 ≤ choice ∧ choice ≤ (options.length : Int) then
        .done (options.getD (choice - 1).toNat "")
      else if allowCustom ∧ choice = (options.length : Int) + 1 then
        .again .waitingCustom
      else
        .again .waitingChoice
    | none => .again .waitingChoice
  | .waitingCustom, line =>
    let custom := pyStrip line
    if custom ≠ "" then .done custom else .again .waitingChoice
  | .waitingFree, line =>
    let response := pyStrip line
    if response ≠ "" then .done response else .again .waitingFree

/-- One console event: a line of text typed by the operator, or a
cancellation signal (`KeyboardInterrupt`) delivered at the blocking read. -/
inductive Event where
  | line (s : String) : Event
  | intr : Event
deriving DecidableEq

/-- Result of a whole `ask_question` call: an answer plus the unconsumed
input, a `KeyboardInterrupt` propagating out, or `EOFError` propagating out
because the input source is exhausted. -/
inductive AskOut where
  | ok (answer : String) (rest : List Event) : AskOut
  | interrupted : AskOut
  | eof : AskOut
deriving DecidableEq

/-- The `while True` loop of `ask_question`, consuming events one read at a
time from the given blocked-on state. -/
def askRun (options : List String) (allowCustom : Bool) :
    AskState → List Event → AskOut
  | _, [] => .eof
  | _, .intr :: _ => .interrupted
  | st, .line l :: rest =>
    match askStep options allowCustom st l with
    | .done a => .ok a rest
    | .again st2 => askRun options allowCustom st2 rest

/-- `BackendAssistant.ask_question` (lines 41-76): with options the loop
starts at the numbered-choice read, without options at the free-text read. -/
def ask_question (options : List String) (allowCustom : Bool)
    (evs : List Event) : AskOut :=
  askRun options allowCustom
    (if options.isEmpty then .waitingFree else .waitingChoice) evs

/-- `session_data` as initialized by `BackendAssistant.__init__`
(lines 17-27): eight answer fields set to `None` and `current_step = 1`. -/
def init_session_data : Session :=
  [("frontend_tech_stack", .null),
   ("backend_framework", .null),
   ("llm_requirements", .null),
   ("data_format", .null),
   ("api_design", .null),
   ("auth_requirements", .null),
   ("deployment_target", .null),
   ("communication_method", .null),
   ("current_step", .num 1)]

/-- Options of step 1's familiarity question (lines 93-97). -/
def step1Options : List String :=
  ["Very familiar - I built it",
   "Somewhat familiar - I\x27ve reviewed the code",
   "Not familiar - I\x27m new to this project"]

/-- Options of step 2's framework question (lines 121-126). -/
def frameworkOptions : List String :=
  ["FastAPI (Python) - High performance, automatic API docs",
   "Flask (Python) - Lightweight, flexible, great for MVPs",
   "Node.js (Express) - JavaScript full-stack, familiar syntax",
   "Django (Python) - Full-featured, built-in admin, ORM"]

/-- Options of step 2's experience question (lines 136-140). -/
def experienceOptions : List String :=
  ["Expert - I\x27ve built production applications",
   "Intermediate - I\x27ve built some projects",
   "Beginner - I\x27m learning or new to it"]

/-- Options of step 3's LLM question (lines 159-164). -/
def llmOptions : List String :=
  ["Mistral 7B (Local) - Privacy-focused, no API costs",
   "OpenAI GPT (API) - Powerful, easy to integrate",
   "Anthropic Claude (API) - Strong reasoning, safety-focused",
   "Hugging Face Models - Open source, customizable"]

/-- Options of step 3's vector-database question (lines 170-175). -/
def vectorOptions : List String :=
  ["Faiss (Facebook) - Fast, local, good for prototypes",
   "Pinecone - Managed, scalable, easy to use",
   "Weaviate - Open source, GraphQL API",
   "Chroma - Simple, local-first, Python-friendly"]

/-- Options of step 4's data-source question (lines 202-207). -/
def dataOptions : List String :=
  ["Insurance company APIs - Real-time policy data",
   "Static datasets - CSV/JSON files with policy info",
   "Manual curation - Build your own policy database",
   "Third-party services - Insurance aggregator APIs"]

/-- Options of step 4's complexity question (lines 213-217). -/
def complexityOptions : List String :=
  ["Simple - Basic plans with premium ranges",
   "Moderate - Multiple coverage types and tiers",
   "Complex - Detailed underwriting and calculations"]

/-- Options of step 5's API-style question (lines 243-247). -/
def apiOptions : List String :=
  ["REST - Simple, widely supported",
   "GraphQL - Flexible queries, single endpoint",
   "FastAPI/OpenAPI - Auto-generated docs, type safety"]

/-- Options of step 5's real-time question (lines 253-257). -/
def realtimeOptions : List String :=
  ["Yes - WebSocket for live chat",
   "Yes - Server-sent events for updates",
   "No - Standard HTTP requests are fine"]

/-- Options of step 6's authentication question (lines 277-282). -/
def authOptions : List String :=
  ["None - Anonymous quotes (simplest start)",
   "Basic - Email/password registration",
   "OAuth - Google/Facebook login",
   "Enterprise - SAML/LDAP integration"]

/-- Options of step 6's privacy question (lines 288-292). -/
def privacyOptions : List String :=
  ["Low - General health questions only",
   "Medium - Some medical history",
   "High - Detailed medical records (HIPAA compliance needed)"]

/-- Options of step 7's deployment question (lines 312-317). -/
def deployOptions : List String :=
  ["Local development - Docker Compose",
   "Cloud platform - AWS/GCP/Azure",
   "PaaS solution - Heroku/Railway/Render",
   "Serverless - AWS Lambda/Vercel Functions"]

/-- Options of step 7's scale question (lines 323-327). -/
def scaleOptions : List String :=
  ["Small - <100 users/day",
   "Medium - 100-1000 users/day",
   "Large - 1000+ users/day"]

/-- Options of step 8's communication question (lines 352-357). -/
def commOptions : List String :=
  ["Axios (already used) - HTTP client library",
   "Fetch API - Native browser API",
   "TanStack Query - Advanced caching and sync",
   "Custom wrapper - Tailored to your needs"]

/-- Options of step 8's error-handling question (lines 363-367). -/
def errorOptions : List String :=
  ["Basic - Simple try/catch blocks",
   "Intermediate - User-friendly error messages",
   "Advanced - Retry logic, fallbacks, monitoring"]

/-- Options of the continue question asked between steps (line 668). -/
def continueOptions : List String :=
  ["Yes, continue", "No, let me review this step"]

/-- Result of running one step function: normal return with the mutated
session, a `KeyboardInterrupt` propagating out of it, or an `Exception`
(`EOFError` from an exhausted input source) propagating out of it.  In the
latter two cases mutations made before the raise are retained. -/
inductive StepOut where
  | ok (s : Session) (rest : List Event) : StepOut
  | intr (s : Session) : StepOut
  | err (s : Session) : StepOut

/-- `step_1_frontend_analysis` (lines 78-113): one question, then the
`frontend_tech_stack` field is set to a nested dict. -/
def step_1_frontend_analysis (s : Session) (evs : List Event) : StepOut :=
  match ask_question step1Options true evs with
  | .ok familiarity rest =>
    .ok (dictSet s "frontend_tech_stack"
      (.obj [("framework", .str "React + Vite"),
             ("styling", .str "Tailwind CSS"),
             ("familiarity", .str familiarity)])) rest
  | .interrupted => .intr s
  | .eof => .err s

/-- `step_2_backend_framework` (lines 115-145): sets `backend_framework`
right after the first question, then asks the experience question and sets
`backend_framework_experience` (a key absent from `__init__`). -/
def step_2_backend_framework (s : Session) (evs : List Event) : StepOut :=
  match ask_question frameworkOptions true evs with
  | .ok fw rest =>
    let s1 := dictSet s "backend_framework" (.str fw)
    match ask_question experienceOptions true rest with
    | .ok ex rest2 => .ok (dictSet s1 "backend_framework_experience" (.str ex)) rest2
    | .interrupted => .intr s1
    | .eof => .err s1
  | .interrupted => .intr s
  | .eof => .err s

/-- `step_3_llm_integration` (lines 147-187): both questions are asked
before the single write to `llm_requirements`. -/
def step_3_llm_integration (s : Session) (evs : List Event) : StepOut :=
  match ask_question llmOptions true evs with
  | .ok a rest =>
    match ask_question vectorOptions true rest with
    | .ok b rest2 =>
      .ok (dictSet s "llm_requirements"
        (.obj [("llm_choice", .str a), ("vector_db", .str b)])) rest2
    | .interrupted => .intr s
    | .eof => .err s
  | .interrupted => .intr s
  | .eof => .err s

/-- `step_4_data_structure` (lines 189-229). -/
def step_4_data_structure (s : Session) (evs : List Event) : StepOut :=
  match ask_question dataOptions true evs with
  | .ok a rest =>
    match ask_question complexityOptions true rest with
    | .ok b rest2 =>
      .ok (dictSet s "data_format"
        (.obj [("source", .str a), ("complexity", .str b)])) rest2
    | .interrupted => .intr s
    | .eof => .err s
  | .interrupted => .intr s
  | .eof => .err s

/-- `step_5_api_design` (lines 231-269). -/
def step_5_api_design (s : Session) (evs : List Event) : StepOut :=
  match ask_question apiOptions true evs with
  | .ok a rest =>
    match ask_question realtimeOptions true rest with
    | .ok b rest2 =>
      .ok (dictSet s "api_design"
        (.obj [("style", .str a), ("realtime", .str b)])) rest2
    | .interrupted => .intr s
    | .eof => .err s
  | .interrupted => .intr s
  | .eof => .err s

/-- `step_6_authentication_security` (lines 271-304). -/
def step_6_authentication_security (s : Session) (evs : List Event) : StepOut :=
  match ask_question authOptions true evs with
  | .ok a rest =>
    match ask_question privacyOptions true rest with
    | .ok b rest2 =>
      .ok (dictSet s "auth_requirements"
        (.obj [("auth_type", .str a), ("privacy_level", .str b)])) rest2
    | .interrupted => .intr s
    | .eof => .err s
  | .interrupted => .intr s
  | .eof => .err s

/-- `step_7_deployment_scalability` (lines 306-339). -/
def step_7_deployment_scalability (s : Session) (evs : List Event) : StepOut :=
  match ask_question deployOptions true evs with
  | .ok a rest =>
    match ask_question scaleOptions true rest with
    | .ok b rest2 =>
      .ok (dictSet s "deployment_target"
        (.obj [("platform", .str a), ("scale", .str b)])) rest2
    | .interrupted => .intr s
    | .eof => .err s
  | .interrupted => .intr s
  | .eof => .err s

/-- `step_8_communication_method` (lines 341-376). -/
def step_8_communication_method (s : Session) (evs : List Event) : StepOut :=
  match ask_question commOptions true evs with
  | .ok a rest =>
    match ask_question errorOptions true rest with
    | .ok b rest2 =>
      .ok (dictSet s "communication_method"
        (.obj [("client", .str a), ("error_handling", .str b)])) rest2
    | .interrupted => .intr s
    | .eof => .err s
  | .interrupted => .intr s
  | .eof => .err s

/-- The `steps` list of `run` (lines 649-658), indexed 1..8 as by
`enumerate(steps, 1)`.  Out-of-range indices never occur in `run`. -/
def steps : Nat → Session → List Event → StepOut
  | 1, s, evs => step_1_frontend_analysis s evs
  | 2, s, evs => step_2_backend_framework s evs
  | 3, s, evs => step_3_llm_integration s evs
  | 4, s, evs => step_4_data_structure s evs
  | 5, s, evs => step_5_api_design s evs
  | 6, s, evs => step_6_authentication_security s evs
  | 7, s, evs => step_7_deployment_scalability s evs
  | 8, s, evs => step_8_communication_method s evs
  | _, s, _ => .err s

/-- How one invocation of `run` ended. -/
inductive Outcome where
  | completed : Outcome
  | declined : Outcome
  | pausedStepIntr : Outcome
  | topIntr : Outcome
  | stepError (i : Nat) : Outcome
deriving DecidableEq

/-- Observable result of `run`: the outcome, the in-memory `session_data`
at exit, and the snapshot written by `save_session` — `none` when
`save_session` was never invoked on that path. -/
structure RunResult where
  outcome : Outcome
  final : Session
  saved : Option Session

/-- The `for i, step in enumerate(steps, 1)` loop of `run` (lines 660-683),
as a function of the current step index `i` and the number `n` of steps
remaining after it (so `n = 0` exactly when `i` is the last step, which is
the `i < len(steps)` test).  Per iteration: run the step; on its normal
return set `current_step = i + 1`; if steps remain ask the continue
question and stop-and-save when the answer contains `"No"` (line 670).
`KeyboardInterrupt` inside the iteration saves and returns (lines 676-679);
any other exception reports step `i` and returns without saving
(lines 680-683).  When the loop finishes the plan is rendered and the
session saved (lines 686-687). -/
def runLoop : Nat → Nat → Session → List Event → RunResult
  | _, 0, s, _ => ⟨.completed, s, some s⟩
  | i, n + 1, s, evs =>
    match steps i s evs with
    | .intr s' => ⟨.pausedStepIntr, s', some s'⟩
    | .err s' => ⟨.stepError i, s', none⟩
    | .ok s' evs' =>
      if n = 0 then
        runLoop (i + 1) n (dictSet s' "current_step" (.num (i + 1))) evs'
      else
        match ask_question continueOptions true evs' with
        | .ok a evs2 =>
          if pyIn "No" a then
            ⟨.declined, dictSet s' "current_step" (.num (i + 1)),
              some (dictSet s' "current_step" (.num (i + 1)))⟩
          else runLoop (i + 1) n (dictSet s' "current_step" (.num (i + 1))) evs2
        | .interrupted =>
          ⟨.pausedStepIntr, dictSet s' "current_step" (.num (i + 1)),
            some (dictSet s' "current_step" (.num (i + 1)))⟩
        | .eof => ⟨.stepError i, dictSet s' "current_step" (.num (i + 1)), none⟩

/-- `BackendAssistant.run` (lines 644-694).  `intrAtWelcome` models a
cancellation signal delivered during `display_welcome`, before the step
loop: it is caught only by the top-level handler (lines 692-694), which
prints a farewell and returns without calling `save_session`.  Note the
loop is entered counting 8 steps with index starting at 1, so the second
argument of `runLoop` is `8 = 9 - 1` further steps counting the current
one, i.e. `runLoop 1 8` runs steps 1..8. -/
def run (intrAtWelcome : Bool) (evs : List Event) : RunResult :=
  if intrAtWelcome then ⟨.topIntr, init_session_data, none⟩
  else runLoop 1 8 init_session_data evs

/-- One completed round of the sequencer at step `i`: the step returns
normally, `current_step` is set to `i + 1`, and — when `i` is not the last
step — the continue question is answered with a string not containing
`"No"`.  Used to phrase hypotheses "the run reaches step `i + 1`". -/
def execRound (i : Nat) (s : Session) (evs : List Event) :
    Option (Session × List Event) :=
  match steps i s evs with
  | .ok s' evs' =>
    if i < 8 then
      match ask_question continueOptions true evs' with
      | .ok a evs2 =>
        if pyIn "No" a then none
        else some (dictSet s' "current_step" (.num (i + 1)), evs2)
      | .interrupted => none
      | .eof => none
    else some (dictSet s' "current_step" (.num (i + 1)), evs')
  | .intr _ => none
  | .err _ => none

/-- `n` consecutive completed rounds starting at step `i`. -/
def execRounds : Nat → Nat → Session → List Event → Option (Session × List Event)
  | _, 0, s, evs => some (s, evs)
  | i, n + 1, s, evs =>
    match execRound i s evs with
    | some (s', evs') => execRounds (i + 1) n s' evs'
    | none => none

/-- The session keys written by step `i` (empty outside 1..8). -/
def stepKeys : Nat → List String
  | 1 => ["frontend_tech_stack"]
  | 2 => ["backend_framework", "backend_framework_experience"]
  | 3 => ["llm_requirements"]
  | 4 => ["data_format"]
  | 5 => ["api_design"]
  | 6 => ["auth_requirements"]
  | 7 => ["deployment_target"]
  | 8 => ["communication_method"]
  | _ => []

/-- The `__init__`-declared Session Record field owned by step `i`. -/
def stepField : Nat → String
  | 1 => "frontend_tech_stack"
  | 2 => "backend_framework"
  | 3 => "llm_requirements"
  | 4 => "data_format"
  | 5 => "api_design"
  | 6 => "auth_requirements"
  | 7 => "deployment_target"
  | 8 => "communication_method"
  | _ => ""

/-- Shape of the record entries written by step `i` once it has returned
normally (quantifying over the recorded answers). -/
def stepPost : Nat → Session → Prop
  | 1, s => ∃ a, dictGet s "frontend_tech_stack" =
      some (.obj [("framework", .str "React + Vite"),
                  ("styling", .str "Tailwind CSS"),
                  ("familiarity", .str a)])
  | 2, s => (∃ a, dictGet s "backend_framework" = some (.str a)) ∧
      (∃ b, dictGet s "backend_framework_experience" = some (.str b))
  | 3, s => ∃ a b, dictGet s "llm_requirements" =
      some (.obj [("llm_choice", .str a), ("vector_db", .str b)])
  | 4, s => ∃ a b, dictGet s "data_format" =
      some (.obj [("source", .str a), ("complexity", .str b)])
  | 5, s => ∃ a b, dictGet s "api_design" =
      some (.obj [("style", .str a), ("realtime", .str b)])
  | 6, s => ∃ a b, dictGet s "auth_requirements" =
      some (.obj [("auth_type", .str a), ("privacy_level", .str b)])
  | 7, s => ∃ a b, dictGet s "deployment_target" =
      some (.obj [("platform", .str a), ("scale", .str b)])
  | 8, s => ∃ a b, dictGet s "communication_method" =
      some (.obj [("client", .str a), ("error_handling", .str b)])
  | _, _ => True

/-- The session lookups performed by `generate_implementation_plan`
(lines 378-418) to fill the plan lines: a top-level key, optionally with
the sub-key read from the nested dict via `.get(sub, "Not specified")`. -/
def planFields : List (String × Option String) :=
  [("backend_framework", none),
   ("llm_requirements", some "llm_choice"),
   ("llm_requirements", some "vector_db"),
   ("data_format", some "source"),
   ("data_format", some "complexity"),
   ("api_design", some "style"),
   ("api_design", some "realtime"),
   ("auth_requirements", some "auth_type"),
   ("auth_requirements", some "privacy_level"),
   ("deployment_target", some "platform"),
   ("deployment_target", some "scale")]

/-- One plan lookup: `some v` when a recorded value is displayed, `none`
when the renderer falls back to its literal `"Not specified"` placeholder
(an absent top-level key defaults to `{}`, so its sub-key lookups also fall
back; a `None` value under the key would raise in the source, but the plan
is only rendered after all eight steps have set their fields). -/
def planLookup (s : Session) : String × Option String → Option JValue
  | (k, none) => dictGet s k
  | (k, some sub) =>
    match dictGet s k with
    | some (.obj fields) => dictGet fields sub
    | _ => none

/-- The framework-specific blocks of `generate_next_steps`. -/
inductive FrameworkGuide where
  | fastapi : FrameworkGuide
  | flask : FrameworkGuide
  | nodejs : FrameworkGuide
deriving DecidableEq

/-- `generate_next_steps` (lines 420-452): which framework-specific setup
block is printed, selected by substring matching on the recorded
backend-framework answer; `none` means only the generic text is printed. -/
def generate_next_steps (framework : String) : Option FrameworkGuide :=
  if pyIn "FastAPI" framework then some .fastapi
  else if pyIn "Flask" framework then some .flask
  else if pyIn "Node.js" framework then some .nodejs
  else none

/-- Input driving a full run: every question answered with option 1 and
every continue question answered with option 1 ("Yes, continue"): 15
question answers plus 7 continue answers. -/
def wEvsFull : List Event := List.replicate 22 (Event.line "1")

/-- The session after round 1 of the sequencer (step 1 answered with
option 1 and the continue question answered affirmatively). -/
def wSessRound1 : Session :=
  [("frontend_tech_stack", .obj [("framework", .str "React + Vite"),
      ("styling", .str "Tailwind CSS"),
      ("familiarity", .str "Very familiar - I built it")]),
   ("backend_framework", .null),
   ("llm_requirements", .null),
   ("data_format", .null),
   ("api_design", .null),
   ("auth_requirements", .null),
   ("deployment_target", .null),
   ("communication_method", .null),
   ("current_step", .num 2)]

/-- The session right after `step_1_frontend_analysis` returns (option 1
answer), before the sequencer updates `current_step`. -/
def wSessStep1 : Session :=
  [("frontend_tech_stack", .obj [("framework", .str "React + Vite"),
      ("styling", .str "Tailwind CSS"),
      ("familiarity", .str "Very familiar - I built it")]),
   ("backend_framework", .null),
   ("llm_requirements", .null),
   ("data_format", .null),
   ("api_design", .null),
   ("auth_requirements", .null),
   ("deployment_target", .null),
   ("communication_method", .null),
   ("current_step", .num 1)]

/-- The session right after `step_2_backend_framework` returns (option 1
answers), before the sequencer updates `current_step`. -/
def wSessStep2 : Session :=
  [("frontend_tech_stack", .obj [("framework", .str "React + Vite"),
      ("styling", .str "Tailwind CSS"),
      ("familiarity", .str "Very familiar - I built it")]),
   ("backend_framework", .str "FastAPI (Python) - High performance, automatic API docs"),
   ("llm_requirements", .null),
   ("data_format", .null),
   ("api_design", .null),
   ("auth_requirements", .null),
   ("deployment_target", .null),
   ("communication_method", .null),
   ("current_step", .num 2),
   ("backend_framework_experience", .str "Expert - I\x27ve built production applications")]

/-- The session saved when the operator declines to continue after step 2
(`wSessStep2` with `current_step` advanced to 3). -/
def wSessDecl2 : Session :=
  [("frontend_tech_stack", .obj [("framework", .str "React + Vite"),
      ("styling", .str "Tailwind CSS"),
      ("familiarity", .str "Very familiar - I built it")]),
   ("backend_framework", .str "FastAPI (Python) - High performance, automatic API docs"),
   ("llm_requirements", .null),
   ("data_format", .null),
   ("api_design", .null),
   ("auth_requirements", .null),
   ("deployment_target", .null),
   ("communication_method", .null),
   ("current_step", .num 3),
   ("backend_framework_experience", .str "Expert - I\x27ve built production applications")]

/-- The final session of a full option-1 run of all eight steps. -/
def wSessFull : Session :=
  [("frontend_tech_stack", .obj [("framework", .str "React + Vite"),
      ("styling", .str "Tailwind CSS"),
      ("familiarity", .str "Very familiar - I built it")]),
   ("backend_framework", .str "FastAPI (Python) - High performance, automatic API docs"),
   ("llm_requirements", .obj [("llm_choice", .str "Mistral 7B (Local) - Privacy-focused, no API costs"),
      ("vector_db", .str "Faiss (Facebook) - Fast, local, good for prototypes")]),
   ("data_format", .obj [("source", .str "Insurance company APIs - Real-time policy data"),
      ("complexity", .str "Simple - Basic plans with premium ranges")]),
   ("api_design", .obj [("style", .str "REST - Simple, widely supported"),
      ("realtime", .str "Yes - WebSocket for live chat")]),
   ("auth_requirements", .obj [("auth_type", .str "None - Anonymous quotes (simplest start)"),
      ("privacy_level", .str "Low - General health questions only")]),
   ("deployment_target", .obj [("platform", .str "Local development - Docker Compose"),
      ("scale", .str "Small - <100 users/day")]),
   ("communication_method", .obj [("client", .str "Axios (already used) - HTTP client library"),
      ("error_handling", .str "Basic - Simple try/catch blocks")]),
   ("current_step", .num 9),
   ("backend_framework_experience", .str "Expert - I\x27ve built production applications")]

/-- Sessions reachable from `s` by repeatedly assigning keys drawn from
`keys` — the write discipline of a step function over its owned keys. -/
inductive WriteChain (keys : List String) : Session → Session → Prop where
  | refl (s : Session) : WriteChain keys s s
  | set (s1 s2 : Session) (k : String) (v : JValue) :
      WriteChain keys s1 s2 → k ∈ keys → WriteChain keys s1 (dictSet s2 k v)

theorem dictGet_dictSet_self (d : Session) (k : String) (v : JValue) :
    dictGet (dictSet d k v) k = some v := by
  induction d with
  | nil => simp [dictSet, dictGet]
  | cons p rest ih =>
    obtain ⟨k', v'⟩ := p
    by_cases h : k' = k
    · subst h; simp [dictSet, dictGet]
    · simp [dictSet, dictGet, h, ih]

theorem dictGet_dictSet_ne (d : Session) (k : String) (v : JValue) (k' : String)
    (h : k' ≠ k) : dictGet (dictSet d k v) k' = dictGet d k' := by
  have h2 : ¬(k = k') := fun hh => h hh.symm
  induction d with
  | nil => simp [dictSet, dictGet, h2]
  | cons p rest ih =>
    obtain ⟨k0, v0⟩ := p
    by_cases hk : k0 = k
    · subst hk; simp [dictSet, dictGet, h2]
    · simp [dictSet, dictGet, hk, ih]

theorem keys_dictSet_mem (d : Session) (k : String) (v : JValue)
    (h : k ∈ d.map Prod.fst) : (dictSet d k v).map Prod.fst = d.map Prod.fst := by
  induction d with
  | nil => simp at h
  | cons p rest ih =>
    obtain ⟨k0, v0⟩ := p
    by_cases hk : k0 = k
    · subst hk; simp [dictSet]
    · have : k ∈ rest.map Prod.fst := by
        simp at h
        rcases h with h | h
        · exact absurd h.symm hk
        · simpa using h
      simp [dictSet, hk, ih this]

theorem keys_dictSet_not_mem (d : Session) (k : String) (v : JValue)
    (h : k ∉ d.map Prod.fst) : (dictSet d k v).map Prod.fst = d.map Prod.fst ++ [k] := by
  induction d with
  | nil => simp [dictSet]
  | cons p rest ih =>
    obtain ⟨k0, v0⟩ := p
    have hk : k0 ≠ k := by
      intro hh
      exact h (by simp [hh])
    have hrest : k ∉ rest.map Prod.fst := fun hh => h (by simp [hh])
    simp [dictSet, hk, ih hrest]

theorem WriteChain.frame {keys : List String} {s s' : Session}
    (h : WriteChain keys s s') (key : String) (hk : key ∉ keys) :
    dictGet s' key = dictGet s key := by
  induction h with
  | refl => rfl
  | set s2 k v _ hmem ih =>
    have hne : key ≠ k := fun hh => hk (hh ▸ hmem)
    rw [dictGet_dictSet_ne _ _ _ _ hne, ih]

/-- The session carried by any step result (the state of `session_data`
when the step returns or when an exception propagates out of it). -/
def StepOut.sess : StepOut → Session
  | .ok s _ => s
  | .intr s => s
  | .err s => s

theorem step_1_chain (s : Session) (evs : List Event) :
    WriteChain (stepKeys 1) s (step_1_frontend_analysis s evs).sess := by
  unfold step_1_frontend_analysis
  cases ask_question step1Options true evs <;> dsimp only [StepOut.sess]
  case ok a rest => exact .set _ _ _ _ (.refl s) (by simp [stepKeys])
  case interrupted => exact .refl s
  case eof => exact .refl s

theorem step_2_chain (s : Session) (evs : List Event) :
    WriteChain (stepKeys 2) s (step_2_backend_framework s evs).sess := by
  unfold step_2_backend_framework
  cases ask_question frameworkOptions true evs <;> dsimp only [StepOut.sess]
  case ok a rest =>
    cases ask_question experienceOptions true rest <;> dsimp only [StepOut.sess]
    case ok b rest2 =>
      exact .set _ _ _ _ (.set _ _ _ _ (.refl s) (by simp [stepKeys])) (by simp [stepKeys])
    case interrupted => exact .set _ _ _ _ (.refl s) (by simp [stepKeys])
    case eof => exact .set _ _ _ _ (.refl s) (by simp [stepKeys])
  case interrupted => exact .refl s
  case eof => exact .refl s

theorem step_3_chain (s : Session) (evs : List Event) :
    WriteChain (stepKeys 3) s (step_3_llm_integration s evs).sess := by
  unfold step_3_llm_integration
  cases ask_question llmOptions true evs <;> dsimp only [StepOut.sess]
  case ok a rest =>
    cases ask_question vectorOptions true rest <;> dsimp only [StepOut.sess]
    case ok b rest2 => exact .set _ _ _ _ (.refl s) (by simp [stepKeys])
    case interrupted => exact .refl s
    case eof => exact .refl s
  case interrupted => exact .refl s
  case eof => exact .refl s

theorem step_4_chain (s : Session) (evs : List Event) :
    WriteChain (stepKeys 4) s (step_4_data_structure s evs).sess := by
  unfold step_4_data_structure
  cases ask_question dataOptions true evs <;> dsimp only [StepOut.sess]
  case ok a rest =>
    cases ask_question complexityOptions true rest <;> dsimp only [StepOut.sess]
    case ok b rest2 => exact .set _ _ _ _ (.refl s) (by simp [stepKeys])
    case interrupted => exact .refl s
    case eof => exact .refl s
  case interrupted => exact .refl s
  case eof => exact .refl s

theorem step_5_chain (s : Session) (evs : List Event) :
    WriteChain (stepKeys 5) s (step_5_api_design s evs).sess := by
  unfold step_5_api_design
  cases ask_question apiOptions true evs <;> dsimp only [StepOut.sess]
  case ok a rest =>
    cases ask_question realtimeOptions true rest <;> dsimp only [StepOut.sess]
    case ok b rest2 => exact .set _ _ _ _ (.refl s) (by simp [stepKeys])
    case interrupted => exact .refl s
    case eof => exact .refl s
  case interrupted => exact .refl s
  case eof => exact .refl s

theorem step_6_chain (s : Session) (evs : List Event) :
    WriteChain (stepKeys 6) s (step_6_authentication_security s evs).sess := by
  unfold step_6_authentication_security
  cases ask_question authOptions true evs <;> dsimp only [StepOut.sess]
  case ok a rest =>
    cases ask_question privacyOptions true rest <;> dsimp only [StepOut.sess]
    case ok b rest2 => exact .set _ _ _ _ (.refl s) (by simp [stepKeys])
    case interrupted => exact .refl s
    case eof => exact .refl s
  case interrupted => exact .refl s
  case eof => exact .refl s

theorem step_7_chain (s : Session) (evs : List Event) :
    WriteChain (stepKeys 7) s (step_7_deployment_scalability s evs).sess := by
  unfold step_7_deployment_scalability
  cases ask_question deployOptions true evs <;> dsimp only [StepOut.sess]
  case ok a rest =>
    cases ask_question scaleOptions true rest <;> dsimp only [StepOut.sess]
    case ok b rest2 => exact .set _ _ _ _ (.refl s) (by simp [stepKeys])
    case interrupted => exact .refl s
    case eof => exact .refl s
  case interrupted => exact .refl s
  case eof => exact .refl s

theorem step_8_chain (s : Session) (evs : List Event) :
    WriteChain (stepKeys 8) s (step_8_communication_method s evs).sess := by
  unfold step_8_communication_method
  cases ask_question commOptions true evs <;> dsimp only [StepOut.sess]
  case ok a rest =>
    cases ask_question errorOptions true rest <;> dsimp only [StepOut.sess]
    case ok b rest2 => exact .set _ _ _ _ (.refl s) (by simp [stepKeys])
    case interrupted => exact .refl s
    case eof => exact .refl s
  case interrupted => exact .refl s
  case eof => exact .refl s

theorem steps_chain (j : Nat) (s : Session) (evs : List Event) :
    WriteChain (stepKeys j) s ((steps j s evs).sess) := by
  match j with
  | 1 => exact step_1_chain s evs
  | 2 => exact step_2_chain s evs
  | 3 => exact step_3_chain s evs
  | 4 => exact step_4_chain s evs
  | 5 => exact step_5_chain s evs
  | 6 => exact step_6_chain s evs
  | 7 => exact step_7_chain s evs
  | 8 => exact step_8_chain s evs
  | 0 => exact .refl s
  | n + 9 => exact .refl s

theorem steps_frame_ok (j : Nat) (s s' : Session) (evs evs' : List Event)
    (h : steps j s evs = .ok s' evs') (key : String) (hk : key ∉ stepKeys j) :
    dictGet s' key = dictGet s key := by
  have hc := (steps_chain j s evs).frame key hk
  rw [h] at hc
  exact hc

theorem steps_frame_intr (j : Nat) (s s' : Session) (evs : List Event)
    (h : steps j s evs = .intr s') (key : String) (hk : key ∉ stepKeys j) :
    dictGet s' key = dictGet s key := by
  have hc := (steps_chain j s evs).frame key hk
  rw [h] at hc
  exact hc

theorem step_1_post (s s' : Session) (evs evs' : List Event)
    (h : step_1_frontend_analysis s evs = .ok s' evs') : stepPost 1 s' := by
  unfold step_1_frontend_analysis at h
  split at h
  · cases h
    exact ⟨_, dictGet_dictSet_self _ _ _⟩
  · cases h
  · cases h

theorem dictGet_set_set_fst (s : Session) (k1 k2 : String) (v1 v2 : JValue)
    (h : k1 ≠ k2) :
    dictGet (dictSet (dictSet s k1 v1) k2 v2) k1 = some v1 := by
  rw [dictGet_dictSet_ne _ _ _ _ h]
  exact dictGet_dictSet_self _ _ _

theorem step_2_post (s s' : Session) (evs evs' : List Event)
    (h : step_2_backend_framework s evs = .ok s' evs') : stepPost 2 s' := by
  unfold step_2_backend_framework at h
  split at h
  · split at h
    · cases h
      exact ⟨⟨_, dictGet_set_set_fst _ _ _ _ _ (by decide)⟩,
             ⟨_, dictGet_dictSet_self _ _ _⟩⟩
    · cases h
    · cases h
  · cases h
  · cases h

theorem step_3_post (s s' : Session) (evs evs' : List Event)
    (h : step_3_llm_integration s evs = .ok s' evs') : stepPost 3 s' := by
  unfold step_3_llm_integration at h
  split at h
  · split at h
    · cases h
      exact ⟨_, _, dictGet_dictSet_self _ _ _⟩
    · cases h
    · cases h
  · cases h
  · cases h

theorem step_4_post (s s' : Session) (evs evs' : List Event)
    (h : step_4_data_structure s evs = .ok s' evs') : stepPost 4 s' := by
  unfold step_4_data_structure at h
  split at h
  · split at h
    · cases h
      exact ⟨_, _, dictGet_dictSet_self _ _ _⟩
    · cases h
    · cases h
  · cases h
  · cases h

theorem step_5_post (s s' : Session) (evs evs' : List Event)
    (h : step_5_api_design s evs = .ok s' evs') : stepPost 5 s' := by
  unfold step_5_api_design at h
  split at h
  · split at h
    · cases h
      exact ⟨_, _, dictGet_dictSet_self _ _ _⟩
    · cases h
    · cases h
  · cases h
  · cases h

theorem step_6_post (s s' : Session) (evs evs' : List Event)
    (h : step_6_authentication_security s evs = .ok s' evs') : stepPost 6 s' := by
  unfold step_6_authentication_security at h
  split at h
  · split at h
    · cases h
      exact ⟨_, _, dictGet_dictSet_self _ _ _⟩
    · cases h
    · cases h
  · cases h
  · cases h

theorem step_7_post (s s' : Session) (evs evs' : List Event)
    (h : step_7_deployment_scalability s evs = .ok s' evs') : stepPost 7 s' := by
  unfold step_7_deployment_scalability at h
  split at h
  · split at h
    · cases h
      exact ⟨_, _, dictGet_dictSet_self _ _ _⟩
    · cases h
    · cases h
  · cases h
  · cases h

theorem step_8_post (s s' : Session) (evs evs' : List Event)
    (h : step_8_communication_method s evs = .ok s' evs') : stepPost 8 s' := by
  unfold step_8_communication_method at h
  split at h
  · split at h
    · cases h
      exact ⟨_, _, dictGet_dictSet_self _ _ _⟩
    · cases h
    · cases h
  · cases h
  · cases h

theorem steps_post (j : Nat) (s s' : Session) (evs evs' : List Event)
    (h : steps j s evs = .ok s' evs') : stepPost j s' := by
  match j with
  | 1 => exact step_1_post s s' evs evs' h
  | 2 => exact step_2_post s s' evs evs' h
  | 3 => exact step_3_post s s' evs evs' h
  | 4 => exact step_4_post s s' evs evs' h
  | 5 => exact step_5_post s s' evs evs' h
  | 6 => exact step_6_post s s' evs evs' h
  | 7 => exact step_7_post s s' evs evs' h
  | 8 => exact step_8_post s s' evs evs' h
  | 0 => exact trivial
  | n + 9 => exact trivial

theorem runLoop_execRounds (m : Nat) :
    ∀ (i : Nat) (s : Session) (evs : List Event) (s' : Session) (evs' : List Event),
    1 ≤ i → i + m ≤ 9 → execRounds i m s evs = some (s', evs') →
    runLoop i (9 - i) s evs = runLoop (i + m) (9 - (i + m)) s' evs' := by
  induction m with
  | zero =>
    intro i s evs s' evs' h1 h2 h
    simp only [execRounds, Option.some.injEq, Prod.mk.injEq] at h
    obtain ⟨hs, he⟩ := h
    subst hs; subst he
    rfl
  | succ m ih =>
    intro i s evs s' evs' h1 h2 h
    simp only [execRounds] at h
    have hi8 : i ≤ 8 := by omega
    have h9 : 9 - i = (8 - i) + 1 := by omega
    split at h
    case _ s1 evs1 heq =>
      unfold execRound at heq
      split at heq
      case _ sA evsA heqs =>
        by_cases hlt : i < 8
        · rw [if_pos hlt] at heq
          split at heq
          case _ a evs2 hask =>
            split at heq
            · cases heq
            · cases heq
              rw [h9]
              simp only [runLoop]
              rw [heqs]
              have hn0 : ¬(8 - i = 0) := by omega
              simp only [hn0, if_false, hask]
              next hno =>
                simp only [hno, if_false]
                have harith : 8 - i = 9 - (i + 1) := by omega
                rw [harith]
                have hrec := ih (i + 1) _ _ s' evs' (by omega) (by omega) h
                rw [hrec]
                have harith2 : i + 1 + m = i + (m + 1) := by omega
                rw [harith2]
                simp
          case _ hask => cases heq
          case _ hask => cases heq
        · have hi : i = 8 := by omega
          subst hi
          rw [if_neg hlt] at heq
          cases heq
          have hm : m = 0 := by omega
          subst hm
          simp only [execRounds, Option.some.injEq, Prod.mk.injEq] at h
          obtain ⟨hs, he⟩ := h
          subst hs; subst he
          rw [h9]
          simp only [runLoop]
          rw [heqs]
          rfl
      case _ sA heqs => cases heq
      case _ sA heqs => cases heq
    case _ heq => cases h

theorem execRounds_snoc (n : Nat) :
    ∀ (i : Nat) (s : Session) (evs : List Event) (s' : Session) (evs' : List Event),
    execRounds i (n + 1) s evs = some (s', evs') →
    ∃ sm em, execRounds i n s evs = some (sm, em) ∧
      execRound (i + n) sm em = some (s', evs') := by
  induction n with
  | zero =>
    intro i s evs s' evs' h
    simp only [execRounds] at h
    split at h
    case _ s1 evs1 heq =>
      simp only [execRounds, Option.some.injEq, Prod.mk.injEq] at h
      obtain ⟨hs, he⟩ := h
      subst hs; subst he
      exact ⟨s, evs, rfl, by simpa using heq⟩
    case _ heq => cases h
  | succ n ih =>
    intro i s evs s' evs' h
    simp only [execRounds] at h
    split at h
    case _ s1 evs1 heq =>
      obtain ⟨sm, em, hA, hB⟩ := ih (i + 1) s1 evs1 s' evs' h
      refine ⟨sm, em, ?_, ?_⟩
      · simp only [execRounds, heq]
        exact hA
      · have harith : i + 1 + n = i + (n + 1) := by omega
        rw [harith] at hB
        exact hB
    case _ heq => cases h

theorem execRound_inv (i : Nat) (s : Session) (evs : List Event)
    (s' : Session) (evs' : List Event)
    (h : execRound i s evs = some (s', evs')) :
    ∃ s1 evs1, steps i s evs = .ok s1 evs1 ∧
      s' = dictSet s1 "current_step" (.num (i + 1)) := by
  unfold execRound at h
  split at h
  case _ s1 evs1 heqs =>
    refine ⟨s1, evs1, heqs, ?_⟩
    by_cases hlt : i < 8
    · rw [if_pos hlt] at h
      split at h
      case _ a evs2 hask =>
        split at h
        · cases h
        · cases h
          rfl
      case _ hask => cases h
      case _ hask => cases h
    · rw [if_neg hlt] at h
      cases h
      rfl
  case _ sA heqs => cases h
  case _ sA heqs => cases h

theorem execRound_frame (i : Nat) (s : Session) (evs : List Event)
    (s' : Session) (evs' : List Event)
    (h : execRound i s evs = some (s', evs')) (key : String)
    (hk : key ∉ stepKeys i) (hc : key ≠ "current_step") :
    dictGet s' key = dictGet s key := by
  obtain ⟨s1, evs1, heqs, rfl⟩ := execRound_inv i s evs s' evs' h
  rw [dictGet_dictSet_ne _ _ _ _ hc]
  exact steps_frame_ok i s s1 evs evs1 heqs key hk

theorem execRounds_frame (n : Nat) :
    ∀ (i : Nat) (s : Session) (evs : List Event) (s' : Session) (evs' : List Event),
    execRounds i n s evs = some (s', evs') →
    ∀ key : String, (∀ j, i ≤ j → j < i + n → key ∉ stepKeys j) →
    key ≠ "current_step" → dictGet s' key = dictGet s key := by
  induction n with
  | zero =>
    intro i s evs s' evs' h key hks hc
    simp only [execRounds, Option.some.injEq, Prod.mk.injEq] at h
    obtain ⟨hs, he⟩ := h
    subst hs
    rfl
  | succ n ih =>
    intro i s evs s' evs' h key hks hc
    simp only [execRounds] at h
    split at h
    case _ s1 evs1 heq =>
      have hA := execRound_frame i s evs s1 evs1 heq key (hks i le_rfl (by omega)) hc
      have hB := ih (i + 1) s1 evs1 s' evs' h key
        (fun j hj1 hj2 => hks j (by omega) (by omega)) hc
      rw [hB, hA]
    case _ heq => cases h

theorem execRound_current (i : Nat) (s : Session) (evs : List Event)
    (s' : Session) (evs' : List Event)
    (h : execRound i s evs = some (s', evs')) :
    dictGet s' "current_step" = some (.num (i + 1)) := by
  obtain ⟨s1, evs1, heqs, rfl⟩ := execRound_inv i s evs s' evs' h
  exact dictGet_dictSet_self _ _ _

theorem execRounds_current (m i : Nat) (s : Session) (evs : List Event)
    (s' : Session) (evs' : List Event)
    (h : execRounds i (m + 1) s evs = some (s', evs')) :
    dictGet s' "current_step" = some (.num (i + m + 1)) := by
  obtain ⟨sm, em, hA, hB⟩ := execRounds_snoc m i s evs s' evs' h
  exact execRound_current (i + m) sm em s' evs' hB

/-- The step owning a given session key (0 for keys no step writes). -/
def keyOwner (k : String) : Nat :=
  if k = "frontend_tech_stack" then 1
  else if k = "backend_framework" then 2
  else if k = "backend_framework_experience" then 2
  else if k = "llm_requirements" then 3
  else if k = "data_format" then 4
  else if k = "api_design" then 5
  else if k = "auth_requirements" then 6
  else if k = "deployment_target" then 7
  else if k = "communication_method" then 8
  else 0

theorem mem_stepKeys_owner (j : Nat) (key : String) (h : key ∈ stepKeys j) :
    keyOwner key = j := by
  match j with
  | 1 =>
    simp [stepKeys] at h
    subst h; decide
  | 2 =>
    simp [stepKeys] at h
    rcases h with h | h <;> (subst h; decide)
  | 3 =>
    simp [stepKeys] at h
    subst h; decide
  | 4 =>
    simp [stepKeys] at h
    subst h; decide
  | 5 =>
    simp [stepKeys] at h
    subst h; decide
  | 6 =>
    simp [stepKeys] at h
    subst h; decide
  | 7 =>
    simp [stepKeys] at h
    subst h; decide
  | 8 =>
    simp [stepKeys] at h
    subst h; decide
  | 0 => simp [stepKeys] at h
  | n + 9 => simp [stepKeys] at h

theorem stepKeys_disjoint (j j' : Nat) (hne : j ≠ j') (key : String)
    (hmem : key ∈ stepKeys j) : key ∉ stepKeys j' := by
  intro hmem'
  exact hne ((mem_stepKeys_owner j key hmem).symm.trans (mem_stepKeys_owner j' key hmem'))

theorem stepKey_ne_current (j : Nat) (key : String) (hmem : key ∈ stepKeys j) :
    key ≠ "current_step" := by
  intro hk
  subst hk
  have hown := mem_stepKeys_owner j _ hmem
  have h0 : keyOwner "current_step" = 0 := by decide
  have hj : j = 0 := by rw [h0] at hown; omega
  subst hj
  simp [stepKeys] at hmem

theorem stepField_mem (j : Nat) (h1 : 1 ≤ j) (h2 : j ≤ 8) :
    stepField j ∈ stepKeys j := by
  interval_cases j <;> simp [stepField, stepKeys]

theorem stepField_ne_current (j : Nat) (h1 : 1 ≤ j) (h2 : j ≤ 8) :
    stepField j ≠ "current_step" := by
  interval_cases j <;> decide

theorem stepField_init_null (j : Nat) (h1 : 1 ≤ j) (h2 : j ≤ 8) :
    dictGet init_session_data (stepField j) = some .null := by
  interval_cases j <;> rfl

theorem stepPost_preserve (j : Nat) (s1 s2 : Session)
    (hf : ∀ key ∈ stepKeys j, dictGet s2 key = dictGet s1 key)
    (hp : stepPost j s1) : stepPost j s2 := by
  match j with
  | 1 =>
    obtain ⟨a, ha⟩ := hp
    exact ⟨a, by rw [hf "frontend_tech_stack" (by simp [stepKeys])]; exact ha⟩
  | 2 =>
    obtain ⟨⟨a, ha⟩, ⟨b, hb⟩⟩ := hp
    exact ⟨⟨a, by rw [hf "backend_framework" (by simp [stepKeys])]; exact ha⟩,
           ⟨b, by rw [hf "backend_framework_experience" (by simp [stepKeys])]; exact hb⟩⟩
  | 3 =>
    obtain ⟨a, b, ha⟩ := hp
    exact ⟨a, b, by rw [hf "llm_requirements" (by simp [stepKeys])]; exact ha⟩
  | 4 =>
    obtain ⟨a, b, ha⟩ := hp
    exact ⟨a, b, by rw [hf "data_format" (by simp [stepKeys])]; exact ha⟩
  | 5 =>
    obtain ⟨a, b, ha⟩ := hp
    exact ⟨a, b, by rw [hf "api_design" (by simp [stepKeys])]; exact ha⟩
  | 6 =>
    obtain ⟨a, b, ha⟩ := hp
    exact ⟨a, b, by rw [hf "auth_requirements" (by simp [stepKeys])]; exact ha⟩
  | 7 =>
    obtain ⟨a, b, ha⟩ := hp
    exact ⟨a, b, by rw [hf "deployment_target" (by simp [stepKeys])]; exact ha⟩
  | 8 =>
    obtain ⟨a, b, ha⟩ := hp
    exact ⟨a, b, by rw [hf "communication_method" (by simp [stepKeys])]; exact ha⟩
  | 0 => exact trivial
  | n + 9 => exact trivial

theorem stepPost_field (j : Nat) (h1 : 1 ≤ j) (h2 : j ≤ 8) (s : Session)
    (hp : stepPost j s) :
    ∃ v, dictGet s (stepField j) = some v ∧ v ≠ JValue.null := by
  interval_cases j
  · obtain ⟨a, ha⟩ := hp
    exact ⟨_, ha, fun h => JValue.noConfusion h⟩
  · obtain ⟨⟨a, ha⟩, _⟩ := hp
    exact ⟨_, ha, fun h => JValue.noConfusion h⟩
  · obtain ⟨a, b, ha⟩ := hp
    exact ⟨_, ha, fun h => JValue.noConfusion h⟩
  · obtain ⟨a, b, ha⟩ := hp
    exact ⟨_, ha, fun h => JValue.noConfusion h⟩
  · obtain ⟨a, b, ha⟩ := hp
    exact ⟨_, ha, fun h => JValue.noConfusion h⟩
  · obtain ⟨a, b, ha⟩ := hp
    exact ⟨_, ha, fun h => JValue.noConfusion h⟩
  · obtain ⟨a, b, ha⟩ := hp
    exact ⟨_, ha, fun h => JValue.noConfusion h⟩
  · obtain ⟨a, b, ha⟩ := hp
    exact ⟨_, ha, fun h => JValue.noConfusion h⟩

theorem execRounds_record (n : Nat) :
    ∀ (i : Nat) (s : Session) (evs : List Event) (s' : Session) (evs' : List Event),
    execRounds i n s evs = some (s', evs') →
    ∀ j, i ≤ j → j < i + n → stepPost j s' := by
  induction n with
  | zero =>
    intro i s evs s' evs' h j hj1 hj2
    exact absurd hj2 (by omega)
  | succ n ih =>
    intro i s evs s' evs' h j hj1 hj2
    simp only [execRounds] at h
    split at h
    case _ s1 evs1 heq =>
      by_cases hj : j = i
      · subst hj
        have hpost : stepPost j s1 := by
          obtain ⟨sA, evsA, heqs, rfl⟩ := execRound_inv j s evs s1 evs1 heq
          have hp := steps_post j s sA evs evsA heqs
          exact stepPost_preserve j sA _
            (fun key hkmem =>
              dictGet_dictSet_ne _ _ _ _ (stepKey_ne_current j key hkmem)) hp
        refine stepPost_preserve j s1 s' (fun key hkmem => ?_) hpost
        exact execRounds_frame n (j + 1) s1 evs1 s' evs' h key
          (fun j' hj1' hj2' => stepKeys_disjoint j j' (by omega) key hkmem)
          (stepKey_ne_current j key hkmem)
      · exact ih (i + 1) s1 evs1 s' evs' h j (by omega) (by omega)
    case _ heq => cases h

theorem keys_set_set (s : Session) (k1 k2 : String) (v1 v2 : JValue)
    (h1 : k1 ∈ s.map Prod.fst) (h2 : k2 ∉ s.map Prod.fst) :
    (dictSet (dictSet s k1 v1) k2 v2).map Prod.fst = s.map Prod.fst ++ [k2] := by
  have hk : (dictSet s k1 v1).map Prod.fst = s.map Prod.fst := keys_dictSet_mem _ _ _ h1
  rw [keys_dictSet_not_mem _ _ _ (by rw [hk]; exact h2), hk]

theorem step_1_keys (s s' : Session) (evs evs' : List Event)
    (h : step_1_frontend_analysis s evs = .ok s' evs')
    (hf : "frontend_tech_stack" ∈ s.map Prod.fst) :
    s'.map Prod.fst = s.map Prod.fst := by
  unfold step_1_frontend_analysis at h
  split at h
  · cases h
    exact keys_dictSet_mem _ _ _ hf
  · cases h
  · cases h

theorem step_2_keys (s s' : Session) (evs evs' : List Event)
    (h : step_2_backend_framework s evs = .ok s' evs')
    (hf : "backend_framework" ∈ s.map Prod.fst)
    (he : "backend_framework_experience" ∉ s.map Prod.fst) :
    s'.map Prod.fst = s.map Prod.fst ++ ["backend_framework_experience"] := by
  unfold step_2_backend_framework at h
  split at h
  · split at h
    · cases h
      exact keys_set_set _ _ _ _ _ hf he
    · cases h
    · cases h
  · cases h
  · cases h

theorem step_3_keys (s s' : Session) (evs evs' : List Event)
    (h : step_3_llm_integration s evs = .ok s' evs')
    (hf : "llm_requirements" ∈ s.map Prod.fst) :
    s'.map Prod.fst = s.map Prod.fst := by
  unfold step_3_llm_integration at h
  split at h
  · split at h
    · cases h
      exact keys_dictSet_mem _ _ _ hf
    · cases h
    · cases h
  · cases h
  · cases h

theorem step_4_keys (s s' : Session) (evs evs' : List Event)
    (h : step_4_data_structure s evs = .ok s' evs')
    (hf : "data_format" ∈ s.map Prod.fst) :
    s'.map Prod.fst = s.map Prod.fst := by
  unfold step_4_data_structure at h
  split at h
  · split at h
    · cases h
      exact keys_dictSet_mem _ _ _ hf
    · cases h
    · cases h
  · cases h
  · cases h

theorem step_5_keys (s s' : Session) (evs evs' : List Event)
    (h : step_5_api_design s evs = .ok s' evs')
    (hf : "api_design" ∈ s.map Prod.fst) :
    s'.map Prod.fst = s.map Prod.fst := by
  unfold step_5_api_design at h
  split at h
  · split at h
    · cases h
      exact keys_dictSet_mem _ _ _ hf
    · cases h
    · cases h
  · cases h
  · cases h

theorem step_6_keys (s s' : Session) (evs evs' : List Event)
    (h : step_6_authentication_security s evs = .ok s' evs')
    (hf : "auth_requirements" ∈ s.map Prod.fst) :
    s'.map Prod.fst = s.map Prod.fst := by
  unfold step_6_authentication_security at h
  split at h
  · split at h
    · cases h
      exact keys_dictSet_mem _ _ _ hf
    · cases h
    · cases h
  · cases h
  · cases h

theorem step_7_keys (s s' : Session) (evs evs' : List Event)
    (h : step_7_deployment_scalability s evs = .ok s' evs')
    (hf : "deployment_target" ∈ s.map Prod.fst) :
    s'.map Prod.fst = s.map Prod.fst := by
  unfold step_7_deployment_scalability at h
  split at h
  · split at h
    · cases h
      exact keys_dictSet_mem _ _ _ hf
    · cases h
    · cases h
  · cases h
  · cases h

theorem step_8_keys (s s' : Session) (evs evs' : List Event)
    (h : step_8_communication_method s evs = .ok s' evs')
    (hf : "communication_method" ∈ s.map Prod.fst) :
    s'.map Prod.fst = s.map Prod.fst := by
  unfold step_8_communication_method at h
  split at h
  · split at h
    · cases h
      exact keys_dictSet_mem _ _ _ hf
    · cases h
    · cases h
  · cases h
  · cases h

theorem steps_keys_other (j : Nat) (hj1 : 1 ≤ j) (hj2 : j ≤ 8) (hne : j ≠ 2)
    (s s' : Session) (evs evs' : List Event)
    (h : steps j s evs = .ok s' evs') (hf : stepField j ∈ s.map Prod.fst) :
    s'.map Prod.fst = s.map Prod.fst := by
  interval_cases j
  · exact step_1_keys s s' evs evs' h hf
  · exact absurd rfl hne
  · exact step_3_keys s s' evs evs' h hf
  · exact step_4_keys s s' evs evs' h hf
  · exact step_5_keys s s' evs evs' h hf
  · exact step_6_keys s s' evs evs' h hf
  · exact step_7_keys s s' evs evs' h hf
  · exact step_8_keys s s' evs evs' h hf

theorem stepField_mem_init (j : Nat) (h1 : 1 ≤ j) (h2 : j ≤ 8) :
    stepField j ∈ init_session_data.map Prod.fst := by
  interval_cases j <;> decide

theorem execRounds_keys (k : Nat) :
    k ≤ 8 → ∀ (evs : List Event) (s : Session) (evs' : List Event),
    execRounds 1 k init_session_data evs = some (s, evs') →
    s.map Prod.fst = init_session_data.map Prod.fst ++
      (if 2 ≤ k then ["backend_framework_experience"] else []) := by
  induction k with
  | zero =>
    intro hk evs s evs' h
    simp only [execRounds, Option.some.injEq, Prod.mk.injEq] at h
    obtain ⟨hs, he⟩ := h
    subst hs
    simp
  | succ k ih =>
    intro hk evs s evs' h
    obtain ⟨sm, em, hA, hB⟩ := execRounds_snoc k 1 init_session_data evs s evs' h
    have hkeys_sm := ih (by omega) evs sm em hA
    obtain ⟨s1, evs1, heqs, rfl⟩ := execRound_inv (1 + k) sm em s evs' hB
    have hinit_sub : init_session_data.map Prod.fst ⊆ sm.map Prod.fst := by
      rw [hkeys_sm]
      exact List.subset_append_left _ _
    by_cases hk1 : k = 1
    · subst hk1
      have hbf : "backend_framework" ∈ sm.map Prod.fst := hinit_sub (by decide)
      have hbfe : "backend_framework_experience" ∉ sm.map Prod.fst := by
        rw [hkeys_sm]
        decide
      have hs1 : s1.map Prod.fst = sm.map Prod.fst ++ ["backend_framework_experience"] :=
        step_2_keys sm s1 em evs1 heqs hbf hbfe
      have hcs : "current_step" ∈ s1.map Prod.fst := by
        rw [hs1]
        exact List.mem_append_left _ (hinit_sub (by decide))
      rw [keys_dictSet_mem _ _ _ hcs, hs1, hkeys_sm]
      simp
    · have hfield : stepField (1 + k) ∈ sm.map Prod.fst :=
        hinit_sub (stepField_mem_init (1 + k) (by omega) (by omega))
      have hs1 : s1.map Prod.fst = sm.map Prod.fst :=
        steps_keys_other (1 + k) (by omega) (by omega) (by omega) sm s1 em evs1 heqs hfield
      have hcs : "current_step" ∈ s1.map Prod.fst := by
        rw [hs1]
        exact hinit_sub (by decide)
      rw [keys_dictSet_mem _ _ _ hcs, hs1, hkeys_sm]
      by_cases hk0 : k = 0
      · subst hk0
        simp
      · have hA2 : 2 ≤ k := by omega
        have hB2 : 2 ≤ k + 1 := by omega
        rw [if_pos hA2, if_pos hB2]

theorem runLoop_saved_prop (n : Nat) :
    ∀ (i : Nat) (s : Session) (evs : List Event),
    ((runLoop i n s evs).outcome = .pausedStepIntr →
      (runLoop i n s evs).saved = some (runLoop i n s evs).final) ∧
    (runLoop i n s evs).outcome ≠ .topIntr := by
  induction n with
  | zero =>
    intro i s evs
    exact ⟨fun h => Outcome.noConfusion h, fun h => Outcome.noConfusion h⟩
  | succ n ih =>
    intro i s evs
    simp only [runLoop]
    cases steps i s evs <;> dsimp only
    case intr s' => exact ⟨fun _ => rfl, fun h => Outcome.noConfusion h⟩
    case err s' => exact ⟨fun h => Outcome.noConfusion h, fun h => Outcome.noConfusion h⟩
    case ok s' evs' =>
      by_cases hn : n = 0
      · rw [if_pos hn]
        exact ih (i + 1) _ evs'
      · rw [if_neg hn]
        cases ask_question continueOptions true evs' with
        | ok a evs2 =>
          dsimp only
          by_cases hno : pyIn "No" a = true
          · simp only [hno, if_true]
            exact ⟨fun h => Outcome.noConfusion h, fun h => Outcome.noConfusion h⟩
          · simp only [hno, if_false]
            exact ih (i + 1) _ evs2
        | interrupted => exact ⟨fun _ => rfl, fun h => Outcome.noConfusion h⟩
        | eof => exact ⟨fun h => Outcome.noConfusion h, fun h => Outcome.noConfusion h⟩

/-- Claim C1 (counterexample): a cancellation signal caught by the
top-level handler of `run` (modelled here as one delivered during the
welcome banner, before the step loop) terminates the process cleanly but
`save_session` is never invoked: the snapshot slot is `none`.  This refutes
the claim that both interrupt-catch paths write the partial Session
Record. -/
theorem run_top_interrupt_without_save_cex :
    (run true []).outcome = .topIntr ∧ (run true []).saved = none :=
  ⟨rfl, rfl⟩

/-- Claim C1 (amended): an operator cancellation caught at the per-step
level always saves the partial Session Record (the snapshot equals the
in-memory session at exit), while a cancellation caught at the top level
of `run` exits cleanly without invoking `save_session` at all. -/
theorem run_interrupt_save_paths (w : Bool) (evs : List Event) :
    ((run w evs).outcome = .pausedStepIntr →
      (run w evs).saved = some (run w evs).final) ∧
    ((run w evs).outcome = .topIntr → (run w evs).saved = none) := by
  cases w
  · have h := runLoop_saved_prop 8 1 init_session_data evs
    exact ⟨h.1, fun hh => absurd hh h.2⟩
  · exact ⟨fun h => Outcome.noConfusion h, fun _ => rfl⟩

theorem run_interrupt_save_paths_witness :
    (run false [.intr]).outcome = .pausedStepIntr ∧
    (run false [.intr]).saved = some (run false [.intr]).final ∧
    (run true []).outcome = .topIntr ∧ (run true []).saved = none :=
  ⟨rfl, (run_interrupt_save_paths false [.intr]).1 rfl, rfl,
   (run_interrupt_save_paths true []).2 rfl⟩

/-- Claim C2: in `ask_question` with a non-empty option list and custom
answers allowed, a line parsing to an integer in `[1, N]` returns the
option at that 1-based position; a line parsing to `N + 1` followed by a
line with non-blank content returns that content stripped; a line parsing
to `0`, to `N + 2` or more, or not parsing as an integer at all, re-prompts
at the numbered-choice read without returning. -/
theorem ask_question_choice_semantics (options : List String) (hne : options ≠ [])
    (l : String) (rest : List Event) :
    (∀ c : Int, pyParseInt (pyStrip l) = some c → 1 ≤ c → c ≤ (options.length : Int) →
      ask_question options true (.line l :: rest) = .ok (options.getD (c - 1).toNat "") rest) ∧
    (∀ custom : String, pyParseInt (pyStrip l) = some ((options.length : Int) + 1) →
      pyStrip custom ≠ "" →
      ask_question options true (.line l :: .line custom :: rest) = .ok (pyStrip custom) rest) ∧
    ((pyParseInt (pyStrip l) = none ∨ pyParseInt (pyStrip l) = some 0 ∨
      (∃ c : Int, pyParseInt (pyStrip l) = some c ∧ (options.length : Int) + 2 ≤ c)) →
      ask_question options true (.line l :: rest) = askRun options true .waitingChoice rest) := by
  have hOpt : options.isEmpty = false := by
    cases options with
    | nil => exact absurd rfl hne
    | cons o os => rfl
  refine ⟨?_, ?_, ?_⟩
  · intro c hc hc1 hc2
    simp only [ask_question, hOpt, Bool.false_eq_true, if_false, askRun, askStep, hc]
    rw [if_pos ⟨hc1, hc2⟩]
  · intro custom hc hcust
    simp only [ask_question, hOpt, Bool.false_eq_true, if_false, askRun, askStep, hc]
    have hnot : ¬(1 ≤ (options.length : Int) + 1 ∧
        (options.length : Int) + 1 ≤ (options.length : Int)) := by
      omega
    rw [if_neg hnot]
    rw [if_pos (by exact ⟨trivial, trivial⟩)]
    simp only [askRun, askStep]
    rw [if_pos hcust]
  · intro hbad
    simp only [ask_question, hOpt, Bool.false_eq_true, if_false]
    rcases hbad with hc | hc | ⟨c, hc, hge⟩
    · simp only [askRun, askStep, hc]
    · simp only [askRun, askStep, hc]
      have hnot : ¬((1 : Int) ≤ 0 ∧ (0 : Int) ≤ (options.length : Int)) := by omega
      have hnot2 : ¬(True ∧ (0 : Int) = (options.length : Int) + 1) := by
        intro hh
        have := hh.2
        omega
      rw [if_neg hnot, if_neg hnot2]
    · simp only [askRun, askStep, hc]
      have hnot : ¬(1 ≤ c ∧ c ≤ (options.length : Int)) := by omega
      have hnot2 : ¬(True ∧ c = (options.length : Int) + 1) := by
        intro hh
        have := hh.2
        omega
      rw [if_neg hnot, if_neg hnot2]

theorem ask_question_choice_semantics_witness :
    ask_question ["a", "b"] true [.line " 2 ", .line "x"] = .ok "b" [.line "x"] ∧
    ask_question ["a", "b"] true [.line "3", .line " hi ", .line "x"] = .ok "hi" [.line "x"] ∧
    ask_question ["a", "b"] true [.line "7", .line "x"] =
      askRun ["a", "b"] true .waitingChoice [.line "x"] := by
  refine ⟨?_, ?_, ?_⟩
  · exact (ask_question_choice_semantics ["a", "b"] (by decide) " 2 " [.line "x"]).1
      2 rfl (by decide) (by decide)
  · exact (ask_question_choice_semantics ["a", "b"] (by decide) "3" [.line "x"]).2.1
      " hi " rfl (by decide)
  · exact (ask_question_choice_semantics ["a", "b"] (by decide) "7" [.line "x"]).2.2
      (Or.inr (Or.inr ⟨7, rfl, by decide⟩))

/-- Claim C3 (counterexample): after choosing `N + 1` the custom
"Please specify" read, given an empty line, does not re-prompt the
free-text read: the loop restarts at the numbered-choice read.  Concretely,
with the continue options, input `3`, then an empty line, then `1` returns
option 1 ("Yes, continue"); were the next read a free-text read, the `1`
would have been returned as a custom answer instead. -/
theorem ask_custom_empty_not_free_cex :
    askStep continueOptions true .waitingCustom "" = .again .waitingChoice ∧
    askStep continueOptions true .waitingCustom "" ≠ .again .waitingCustom ∧
    ask_question continueOptions true [.line "3", .line "", .line "1"] =
      .ok "Yes, continue" [] := by
  refine ⟨rfl, ?_, rfl⟩
  decide

/-- Claim C3 (amended): entering `N + 1` and then an empty (or
whitespace-only) line causes `ask_question`'s loop to restart at the
numbered-choice prompt — the next read is a choice read, not another
free-text "Please specify" read. -/
theorem ask_custom_empty_reprompts_choice (options : List String) (l : String)
    (hl : pyStrip l = "") (rest : List Event) :
    askRun options true .waitingCustom (.line l :: rest) =
      askRun options true .waitingChoice rest := by
  simp [askRun, askStep, hl]

theorem ask_custom_empty_reprompts_choice_witness :
    askRun continueOptions true .waitingCustom [.line " ", .line "1"] =
      askRun continueOptions true .waitingChoice [.line "1"] :=
  ask_custom_empty_reprompts_choice continueOptions " " rfl [.line "1"]

/-- Claim C6: if, with the sequencer positioned at step `i` after `i - 1`
completed rounds, step `i` raises an unexpected exception (here `EOFError`
from an exhausted input source), `run` ends with the step-`i` error report:
no later step runs, no plan is generated (the outcome is `stepError i`, not
`completed`), and `save_session` is never invoked (`saved = none`). -/
theorem step_error_terminates_without_save (i : Nat) (h1 : 1 ≤ i) (h2 : i ≤ 8)
    (evs : List Event) (s : Session) (evs' : List Event) (s' : Session)
    (hpre : execRounds 1 (i - 1) init_session_data evs = some (s, evs'))
    (herr : steps i s evs' = .err s') :
    run false evs = ⟨.stepError i, s', none⟩ := by
  have hL := runLoop_execRounds (i - 1) 1 init_session_data evs s evs' (by omega) (by omega) hpre
  have hi : 1 + (i - 1) = i := by omega
  rw [hi] at hL
  rw [show run false evs = runLoop 1 8 init_session_data evs from rfl]
  rw [show (8 : Nat) = 9 - 1 from rfl, hL]
  have h9i : 9 - i = (8 - i) + 1 := by omega
  rw [h9i]
  simp only [runLoop, herr]

theorem step_error_terminates_without_save_witness :
    run false [] = ⟨.stepError 1, init_session_data, none⟩ :=
  step_error_terminates_without_save 1 (by decide) (by decide) []
    init_session_data [] init_session_data rfl rfl

/-- Claim C8: `generate_next_steps` emits the FastAPI-specific block (and
no other) whenever the recorded backend-framework answer contains the
substring "FastAPI", and emits no framework-specific block at all (generic
text only, without raising) when the answer contains none of the known
substrings "FastAPI", "Flask", "Node.js". -/
theorem next_steps_framework_matching (fw : String) :
    (pyIn "FastAPI" fw = true → generate_next_steps fw = some .fastapi) ∧
    (pyIn "FastAPI" fw = false → pyIn "Flask" fw = false → pyIn "Node.js" fw = false →
      generate_next_steps fw = none) := by
  constructor
  · intro h
    simp [generate_next_steps, h]
  · intro hA hB hC
    simp [generate_next_steps, hA, hB, hC]

theorem next_steps_framework_matching_witness :
    generate_next_steps "FastAPI (Python) - High performance, automatic API docs" =
      some .fastapi ∧
    generate_next_steps "Django (Python) - Full-featured, built-in admin, ORM" = none :=
  ⟨(next_steps_framework_matching _).1 (by decide),
   (next_steps_framework_matching _).2 (by decide) (by decide) (by decide)⟩

/-- Claim C4: if, after `k - 1` affirmative rounds (1 ≤ k ≤ 7), step `k`
completes and the continue question is answered with a string containing
"No", `run` stops immediately in the declined state and `save_session`
writes the session at that point: fields owned by steps `k+1..8` are still
`null`, the `__init__`-declared fields owned by steps `1..k` hold non-null
recorded values, and `current_step` is `k + 1`. -/
theorem run_decline_stops_and_saves (k : Nat) (h1 : 1 ≤ k) (h2 : k ≤ 7)
    (evs : List Event) (s : Session) (evs' : List Event)
    (s' : Session) (evs'' : List Event) (a : String) (evs2 : List Event)
    (hpre : execRounds 1 (k - 1) init_session_data evs = some (s, evs'))
    (hstep : steps k s evs' = .ok s' evs'')
    (hans : ask_question continueOptions true evs'' = .ok a evs2)
    (hno : pyIn "No" a = true) :
    run false evs = ⟨.declined, dictSet s' "current_step" (.num (k + 1)),
      some (dictSet s' "current_step" (.num (k + 1)))⟩ ∧
    (∀ j, k + 1 ≤ j → j ≤ 8 →
      dictGet (dictSet s' "current_step" (.num (k + 1))) (stepField j) = some .null) ∧
    (∀ j, 1 ≤ j → j ≤ k →
      ∃ v, dictGet (dictSet s' "current_step" (.num (k + 1))) (stepField j) = some v ∧
        v ≠ JValue.null) ∧
    dictGet (dictSet s' "current_step" (.num (k + 1))) "current_step" =
      some (.num (k + 1)) := by
  refine ⟨?_, ?_, ?_, dictGet_dictSet_self _ _ _⟩
  · have hL := runLoop_execRounds (k - 1) 1 init_session_data evs s evs'
      (by omega) (by omega) hpre
    have hik : 1 + (k - 1) = k := by omega
    rw [hik] at hL
    rw [show run false evs = runLoop 1 8 init_session_data evs from rfl]
    rw [show (8 : Nat) = 9 - 1 from rfl, hL]
    have h9k : 9 - k = (8 - k) + 1 := by omega
    rw [h9k]
    simp only [runLoop, hstep]
    have hk0 : ¬(8 - k = 0) := by omega
    simp only [hk0, if_false, hans, hno, if_true]
  · intro j hj1 hj2
    have hjb1 : 1 ≤ j := by omega
    have hne_cs : stepField j ≠ "current_step" := stepField_ne_current j hjb1 hj2
    rw [dictGet_dictSet_ne _ _ _ _ hne_cs]
    have hmemj : stepField j ∈ stepKeys j := stepField_mem j hjb1 hj2
    rw [steps_frame_ok k s s' evs' evs'' hstep (stepField j)
      (stepKeys_disjoint j k (by omega) _ hmemj)]
    rw [execRounds_frame (k - 1) 1 init_session_data evs s evs' hpre (stepField j)
      (fun j' hj1' hj2' => stepKeys_disjoint j j' (by omega) _ hmemj) hne_cs]
    exact stepField_init_null j hjb1 hj2
  · intro j hj1 hj2
    have hjb2 : j ≤ 8 := by omega
    have hpost : stepPost j (dictSet s' "current_step" (.num (k + 1))) := by
      by_cases hjk : j = k
      · subst hjk
        have hp := steps_post j s s' evs' evs'' hstep
        exact stepPost_preserve j s' _
          (fun key hkmem =>
            dictGet_dictSet_ne _ _ _ _ (stepKey_ne_current j key hkmem)) hp
      · have hp := execRounds_record (k - 1) 1 init_session_data evs s evs' hpre j
          (by omega) (by omega)
        have hp2 : stepPost j s' := stepPost_preserve j s s'
          (fun key hkmem => steps_frame_ok k s s' evs' evs'' hstep key
            (stepKeys_disjoint j k (by omega) key hkmem)) hp
        exact stepPost_preserve j s' _
          (fun key hkmem =>
            dictGet_dictSet_ne _ _ _ _ (stepKey_ne_current j key hkmem)) hp2
    exact stepPost_field j hj1 hjb2 _ hpost

theorem run_decline_stops_and_saves_witness :
    run false [.line "1", .line "1", .line "1", .line "1", .line "2"] =
      ⟨.declined, wSessDecl2, some wSessDecl2⟩ ∧
    dictGet wSessDecl2 (stepField 3) = some .null ∧
    dictGet wSessDecl2 "current_step" = some (.num 3) := by
  have h := run_decline_stops_and_saves 2 (by decide) (by decide)
    [.line "1", .line "1", .line "1", .line "1", .line "2"]
    wSessRound1 [.line "1", .line "1", .line "2"] wSessStep2 [.line "2"]
    "No, let me review this step" [] rfl rfl rfl (by decide)
  exact ⟨h.1, h.2.1 3 (by decide) (by decide), h.2.2.2⟩

/-- Claim C9: the Session Record invariant that `current_step` names the
next step to run: it is 1 at initialization; after the sequencer completes
rounds `1..k` it is `k + 1` (the value serialized by the decline-path and
completion-path saves); and a step interrupted mid-way leaves
`current_step` untouched (so an interrupt save still records the step that
was running as the next one to resume). -/
theorem current_step_invariant :
    dictGet init_session_data "current_step" = some (.num 1) ∧
    (∀ (k : Nat) (evs : List Event) (s : Session) (evs' : List Event),
      1 ≤ k → k ≤ 8 → execRounds 1 k init_session_data evs = some (s, evs') →
      dictGet s "current_step" = some (.num (k + 1))) ∧
    (∀ (j : Nat) (s s' : Session) (evs : List Event),
      steps j s evs = .intr s' →
      dictGet s' "current_step" = dictGet s "current_step") := by
  refine ⟨rfl, ?_, ?_⟩
  · intro k evs s evs' hk1 hk2 h
    obtain ⟨m, rfl⟩ : ∃ m, k = m + 1 := ⟨k - 1, by omega⟩
    have hc := execRounds_current m 1 init_session_data evs s evs' h
    rw [hc]
    congr 2
    push_cast
    ring
  · intro j s s' evs h
    exact steps_frame_intr j s s' evs h "current_step"
      (fun hmem => stepKey_ne_current j _ hmem rfl)

theorem current_step_invariant_witness :
    dictGet init_session_data "current_step" = some (.num 1) ∧
    dictGet wSessRound1 "current_step" = some (.num 2) :=
  ⟨current_step_invariant.1,
   current_step_invariant.2.1 1 [.line "1", .line "1"] wSessRound1 []
     (by decide) (by decide) rfl⟩

/-- Claim C10: with the sequencer positioned at step `k` (1 ≤ k ≤ 7) and
the continue question answered with string `a` (possibly a custom "Other"
answer), the run stops-and-saves exactly when `a` contains the substring
"No": if it does, the declined save happens; if it does not, the loop
proceeds to step `k + 1` with the updated session. -/
theorem continue_decision_no_substring (k : Nat) (h1 : 1 ≤ k) (h2 : k ≤ 7)
    (evs : List Event) (s : Session) (evs' : List Event)
    (s' : Session) (evs'' : List Event) (a : String) (evs2 : List Event)
    (hpre : execRounds 1 (k - 1) init_session_data evs = some (s, evs'))
    (hstep : steps k s evs' = .ok s' evs'')
    (hans : ask_question continueOptions true evs'' = .ok a evs2) :
    (pyIn "No" a = true →
      run false evs = ⟨.declined, dictSet s' "current_step" (.num (k + 1)),
        some (dictSet s' "current_step" (.num (k + 1)))⟩) ∧
    (pyIn "No" a = false →
      run false evs = runLoop (k + 1) (8 - k)
        (dictSet s' "current_step" (.num (k + 1))) evs2) := by
  have hL := runLoop_execRounds (k - 1) 1 init_session_data evs s evs'
    (by omega) (by omega) hpre
  have hik : 1 + (k - 1) = k := by omega
  rw [hik] at hL
  have hrun : run false evs = runLoop k (9 - k) s evs' := by
    rw [show run false evs = runLoop 1 8 init_session_data evs from rfl]
    rw [show (8 : Nat) = 9 - 1 from rfl, hL]
  have h9k : 9 - k = (8 - k) + 1 := by omega
  rw [h9k] at hrun
  have hk0 : ¬(8 - k = 0) := by omega
  constructor
  · intro hno
    rw [hrun]
    simp only [runLoop, hstep, hk0, if_false, hans, hno, if_true]
  · intro hno
    rw [hrun]
    simp only [runLoop, hstep, hk0, if_false, hans, hno, Bool.false_eq_true]

theorem continue_decision_no_substring_witness :
    run false [.line "1", .line "3", .line "Nope"] =
      ⟨.declined, wSessRound1, some wSessRound1⟩ ∧
    run false [.line "1", .line "3", .line "Sure thing"] =
      runLoop 2 7 wSessRound1 [] := by
  constructor
  · exact (continue_decision_no_substring 1 (by decide) (by decide)
      [.line "1", .line "3", .line "Nope"] init_session_data
      [.line "1", .line "3", .line "Nope"] wSessStep1 [.line "3", .line "Nope"]
      "Nope" [] rfl rfl rfl).1 (by decide)
  · exact (continue_decision_no_substring 1 (by decide) (by decide)
      [.line "1", .line "3", .line "Sure thing"] init_session_data
      [.line "1", .line "3", .line "Sure thing"] wSessStep1
      [.line "3", .line "Sure thing"] "Sure thing" [] rfl rfl rfl).2 (by decide)

/-- Claim C7 (counterexample): the snapshot written after declining past
step 2 does not mirror the fixed field set of the data model: it carries
the extra key `backend_framework_experience`, which `__init__` never
declares, so its key list differs from the constructor's. -/
theorem snapshot_extra_key_cex :
    ((run false [.line "1", .line "1", .line "1", .line "1", .line "2"]).saved).map
        (fun d => d.map Prod.fst) =
      some (init_session_data.map Prod.fst ++ ["backend_framework_experience"]) ∧
    init_session_data.map Prod.fst ++ ["backend_framework_experience"] ≠
      init_session_data.map Prod.fst := by
  exact ⟨rfl, by decide⟩

/-- Claim C7 (amended): the session serialized after `k` completed rounds
holds exactly the nine `__init__`-declared keys in order, plus the single
extra key `backend_framework_experience` appended once step 2 has run; in
particular after step 2 the serialized keys are the constructor keys plus
that one extra key, not exactly the constructor keys. -/
theorem snapshot_keys_after_rounds (k : Nat) (hk : k ≤ 8)
    (evs : List Event) (s : Session) (evs' : List Event)
    (h : execRounds 1 k init_session_data evs = some (s, evs')) :
    s.map Prod.fst = init_session_data.map Prod.fst ++
      (if 2 ≤ k then ["backend_framework_experience"] else []) :=
  execRounds_keys k hk evs s evs' h

theorem snapshot_keys_after_rounds_witness :
    wSessDecl2.map Prod.fst =
      init_session_data.map Prod.fst ++ ["backend_framework_experience"] := by
  have h := snapshot_keys_after_rounds 2 (by decide)
    [.line "1", .line "1", .line "1", .line "1", .line "1"] wSessDecl2 [] rfl
  simpa using h

/-- Claim C5 (counterexample): after a full run the field
`communication_method` is recorded (non-null), yet the plan renderer never
reads it — no entry of `planFields` names it — so the rendered plan does
not list each recorded field (it also omits `frontend_tech_stack` and
`backend_framework_experience`). -/
theorem plan_omits_recorded_field_cex :
    (run false wEvsFull).outcome = .completed ∧
    dictGet (run false wEvsFull).final "communication_method" =
      some (.obj [("client", .str "Axios (already used) - HTTP client library"),
                  ("error_handling", .str "Basic - Simple try/catch blocks")]) ∧
    planFields.all (fun f => f.1 != "communication_method") = true :=
  ⟨rfl, rfl, rfl⟩

/-- Claim C5 (amended): completing all eight rounds yields the completed
run with its session saved, `current_step = 9`, every `__init__`-declared
step field non-null, the extra experience key recorded, and every lookup
the plan renderer performs succeeding (no "Not specified" placeholder);
however the plan only reads the framework, LLM, data, API, auth and
deployment fields, omitting the recorded frontend-stack, experience and
communication-method fields. -/
theorem full_run_complete_record (evs : List Event) (s : Session) (evs' : List Event)
    (h : execRounds 1 8 init_session_data evs = some (s, evs')) :
    run false evs = ⟨.completed, s, some s⟩ ∧
    dictGet s "current_step" = some (.num 9) ∧
    (∀ j, 1 ≤ j → j ≤ 8 → ∃ v, dictGet s (stepField j) = some v ∧ v ≠ JValue.null) ∧
    (∃ b, dictGet s "backend_framework_experience" = some (.str b)) ∧
    (∀ f ∈ planFields, (planLookup s f).isSome = true) := by
  have hL := runLoop_execRounds 8 1 init_session_data evs s evs' (by omega) (by omega) h
  refine ⟨?_, ?_, ?_, ?_, ?_⟩
  · rw [show run false evs = runLoop 1 8 init_session_data evs from rfl]
    rw [show (8 : Nat) = 9 - 1 from rfl, hL]
    rfl
  · exact execRounds_current 7 1 init_session_data evs s evs' h
  · intro j hj1 hj2
    exact stepPost_field j hj1 hj2 s
      (execRounds_record 8 1 _ evs s evs' h j (by omega) (by omega))
  · have hp2 : (∃ a, dictGet s "backend_framework" = some (.str a)) ∧
        (∃ b, dictGet s "backend_framework_experience" = some (.str b)) :=
      execRounds_record 8 1 _ evs s evs' h 2 (by omega) (by omega)
    exact hp2.2
  · have hp2 : (∃ a, dictGet s "backend_framework" = some (.str a)) ∧
        (∃ b, dictGet s "backend_framework_experience" = some (.str b)) :=
      execRounds_record 8 1 _ evs s evs' h 2 (by omega) (by omega)
    have hp3 : ∃ a b, dictGet s "llm_requirements" =
        some (.obj [("llm_choice", .str a), ("vector_db", .str b)]) :=
      execRounds_record 8 1 _ evs s evs' h 3 (by omega) (by omega)
    have hp4 : ∃ a b, dictGet s "data_format" =
        some (.obj [("source", .str a), ("complexity", .str b)]) :=
      execRounds_record 8 1 _ evs s evs' h 4 (by omega) (by omega)
    have hp5 : ∃ a b, dictGet s "api_design" =
        some (.obj [("style", .str a), ("realtime", .str b)]) :=
      execRounds_record 8 1 _ evs s evs' h 5 (by omega) (by omega)
    have hp6 : ∃ a b, dictGet s "auth_requirements" =
        some (.obj [("auth_type", .str a), ("privacy_level", .str b)]) :=
      execRounds_record 8 1 _ evs s evs' h 6 (by omega) (by omega)
    have hp7 : ∃ a b, dictGet s "deployment_target" =
        some (.obj [("platform", .str a), ("scale", .str b)]) :=
      execRounds_record 8 1 _ evs s evs' h 7 (by omega) (by omega)
    obtain ⟨⟨fw, hfw⟩, _⟩ := hp2
    obtain ⟨la, lb, hllm⟩ := hp3
    obtain ⟨da, db, hdf⟩ := hp4
    obtain ⟨aa, ab, hapi⟩ := hp5
    obtain ⟨ua, ub, hauth⟩ := hp6
    obtain ⟨pa, pb, hdep⟩ := hp7
    intro f hf
    fin_cases hf <;>
      simp [planLookup, hfw, hllm, hdf, hapi, hauth, hdep, dictGet]

theorem full_run_complete_record_witness :
    run false wEvsFull = ⟨.completed, wSessFull, some wSessFull⟩ ∧
    dictGet wSessFull "current_step" = some (.num 9) ∧
    (planLookup wSessFull ("backend_framework", none)).isSome = true := by
  have h := full_run_complete_record wEvsFull wSessFull [] rfl
  exact ⟨h.1, h.2.1, h.2.2.2.2 ("backend_framework", none) (by decide)⟩
